import Mathlib

/-!
# Verification of the TINKER iterative rehosting orchestration core

A shallow embedding, in Lean 4, of the plan/execute orchestration core of the
TINKER firmware-rehosting repository, together with proofs and refutations of
the claims of its natural-language specification.

The embedding covers:

* the in-memory configuration tree and its dotted-path operations
  (`src/rehosting/tools/config_tools.py`, `ConfigToolRegistry`);
* the mutation tools that operate on it (`add_environment_variable_placeholder`,
  `set_environment_variable_value`, `remove_environment_variable`) and the
  configuration diff (`get_config_diff`);
* the Engineer agent's plan execution (`src/rehosting/agents/engineer.py`,
  `EngineerAgent.execute_plan` / `_implement_option`), with the LLM resolution
  step and the semantics of external/filesystem tools supplied as oracles;
* the firmware planner's retry loop, response parsing and fallback plan
  (`src/rehosting/agents/planner.py`, `FirmwarePlannerAgent`);
* the discovery-mode state transitions and the iteration loop of
  `src/rehosting/rehosting_workflow.py`.

Python-level conventions used throughout the embedding:

* Python `dict`s become association lists whose update keeps the position of an
  existing key and appends a new one, matching insertion-order semantics;
* machine-level exceptions are made explicit: a function that can raise an
  exception that its Python caller does not catch returns an `Except`/`Option`
  value whose error branch corresponds to the escaping exception;
* standard-library calls at the boundary (`json.loads`, `yaml.dump`,
  `difflib.unified_diff`, the stability of `sorted`) are modelled from their
  documented behaviour, as noted at each definition.
-/

set_option maxHeartbeats 1600000
set_option linter.unusedVariables false

namespace Tinker

/-! ## The configuration tree (`config.yaml` loaded through `yaml.safe_load`)

A YAML document as manipulated by `ConfigToolRegistry`: scalars, plus nested
string-keyed mappings.  Mappings are association lists with Python `dict`
insertion-order semantics. -/

inductive Yaml where
  | null : Yaml
  | boolV : Bool → Yaml
  | numV : Int → Yaml
  | str : String → Yaml
  | dict : List (String × Yaml) → Yaml

/-- First-occurrence lookup in an association list (`d[k]` / `k in d`). -/
def lookupD : List (String × Yaml) → String → Option Yaml
  | [], _ => none
  | (k', v') :: rest, k => if k' == k then some v' else lookupD rest k

/-- Model of `d[k] = v` on a Python dict: replaces the value in place when the key is
present, appends the pair otherwise (insertion order preserved). -/
def setKeyD : List (String × Yaml) → String → Yaml → List (String × Yaml)
  | [], k, v => [(k, v)]
  | (k', v') :: rest, k, v =>
      if k' == k then (k, v) :: rest else (k', v') :: setKeyD rest k v

/-- Model of `del d[k]` on a Python dict (first occurrence). -/
def delKeyD : List (String × Yaml) → String → List (String × Yaml)
  | [], _ => []
  | (k', v') :: rest, k => if k' == k then rest else (k', v') :: delKeyD rest k

/-- Model of `ConfigToolRegistry._get_nested_value`, on an already split path.  The
source walks the parts, returning `None` as soon as the current node is not a
dict containing the next part; Python `None` is `Yaml.null` here. -/
def getNestedParts : Yaml → List String → Yaml
  | cfg, [] => cfg
  | cfg, p :: rest =>
      match cfg with
      | .dict es =>
          match lookupD es p with
          | some c => getNestedParts c rest
          | none => .null
      | _ => .null

/-- Model of `ConfigToolRegistry._set_nested_value`, on an already split path.  The
source walks `parts[:-1]`, creating an empty dict for a missing part, and
assigns the value at the last part.  Reaching a non-dict intermediate node
raises a `TypeError` in Python (caught by the calling tool); that escaping
exception is the `none` branch. -/
def setNestedParts : Yaml → List String → Yaml → Option Yaml
  | cfg, [p], v =>
      match cfg with
      | .dict es => some (.dict (setKeyD es p v))
      | _ => none
  | cfg, p :: rest, v =>
      match cfg with
      | .dict es =>
          let child := match lookupD es p with
            | some c => c
            | none => .dict []
          match setNestedParts child rest v with
          | some child' => some (.dict (setKeyD es p child'))
          | none => none
      | _ => none
  | _, [], _ => none

/-- Model of `ConfigToolRegistry._remove_nested_value`, on an already split path:
walks `parts[:-1]` requiring existing dict nodes, then deletes the final key
when present.  Returns the new tree and the boolean result of the source. -/
def removeNestedParts : Yaml → List String → Yaml × Bool
  | cfg, [] => (cfg, false)
  | cfg, [p] =>
      match cfg with
      | .dict es =>
          match lookupD es p with
          | some _ => (.dict (delKeyD es p), true)
          | none => (cfg, false)
      | _ => (cfg, false)
  | cfg, p :: rest =>
      match cfg with
      | .dict es =>
          match lookupD es p with
          | some c =>
              let (c', ok) := removeNestedParts c rest
              if ok then (.dict (setKeyD es p c'), true) else (cfg, false)
          | none => (cfg, false)
      | _ => (cfg, false)

/-- Worker for `splitPath`: splits a character list at every dot, keeping the
(possibly empty) fragments. -/
def splitDotsGo : List Char → List Char → List String
  | [], acc => [String.mk acc.reverse]
  | c :: cs, acc =>
      if c == '.' then String.mk acc.reverse :: splitDotsGo cs []
      else splitDotsGo cs (c :: acc)

/-- Model of `path.split('.')` of Python: the list of (possibly empty) fragments
between the dots.  It is never the empty list. -/
def splitPath (path : String) : List String := splitDotsGo path.data []

/-- Model of `_get_nested_value` on the dotted path string. -/
def getNestedValue (cfg : Yaml) (path : String) : Yaml :=
  getNestedParts cfg (splitPath path)

/-- Model of `_set_nested_value` on the dotted path string. -/
def setNestedValue (cfg : Yaml) (path : String) (v : Yaml) : Option Yaml :=
  setNestedParts cfg (splitPath path) v

/-- Model of `_remove_nested_value` on the dotted path string. -/
def removeNestedValue (cfg : Yaml) (path : String) : Yaml × Bool :=
  removeNestedParts cfg (splitPath path)

/-- The hypothesis of the set/get round-trip: every intermediate node along
the path is either absent or a dict (so `_set_nested_value` cannot hit the
`TypeError` branch). -/
def intermediatesOk : Yaml → List String → Bool
  | _, [] => true
  | _, [_] => true
  | .dict es, p :: rest =>
      match lookupD es p with
      | none => true
      | some (.dict es') => intermediatesOk (.dict es') rest
      | some _ => false
  | _, _ => false

/-! ## JSON values (`json.loads` results, plan data, option dicts) -/

/-- A parsed JSON float (Python `float`): a number with a fractional or
exponent part, or one of the constants `NaN`, `Infinity`, `-Infinity` that
Python's `json.loads` accepts.  A finite float is a sign, the mantissa
digits and a decimal exponent, denoting (-1)^neg * mant * 10^exp10.  (IEEE
rounding, and underflow of extreme literals such as 1e-400, are outside the
model: truthiness is taken from the mantissa.) -/
inductive JsonFloat where
  | finite : Bool → Nat → Int → JsonFloat
  | inf : Bool → JsonFloat
  | nan : JsonFloat

/-- A parsed JSON value.  Python dicts keep insertion order; duplicate keys
are resolved at parse time (last value wins, first position kept), so lookup
is first-occurrence. -/
inductive Json where
  | null : Json
  | boolV : Bool → Json
  | numV : Int → Json
  | floatV : JsonFloat → Json
  | str : String → Json
  | arr : List Json → Json
  | obj : List (String × Json) → Json

/-- First-occurrence lookup in a JSON object. -/
def lookupJ : List (String × Json) → String → Option Json
  | [], _ => none
  | (k', v') :: rest, k => if k' == k then some v' else lookupJ rest k

/-- Python-dict update on a JSON object (replace in place / append). -/
def setKeyJ : List (String × Json) → String → Json → List (String × Json)
  | [], k, v => [(k, v)]
  | (k', v') :: rest, k, v =>
      if k' == k then (k, v) :: rest else (k', v') :: setKeyJ rest k v

/-- Python truthiness (`if x:`) of a JSON value. -/
def jsonTruthy : Json → Bool
  | .null => false
  | .boolV b => b
  | .numV n => n != 0
  | .floatV (.finite _ mant _) => mant != 0
  | .floatV (.inf _) => true
  | .floatV .nan => true
  | .str s => s != ""
  | .arr xs => !xs.isEmpty
  | .obj kvs => !kvs.isEmpty

/-- First-occurrence lookup in a string-valued association list
(tool-call parameter dicts). -/
def lookupS : List (String × String) → String → Option String
  | [], _ => none
  | (k', v') :: rest, k => if k' == k then some v' else lookupS rest k

/-- An option of a firmware configuration plan, as the Engineer receives it:
a raw JSON dict (`FirmwareConfigPlan.options : List[Dict[str, Any]]`). -/
abbrev OptionDict := List (String × Json)

/-! ## `ConfigToolRegistry`: registry state and the mutation tools

The registry owns the in-memory config tree, the baseline snapshot taken at
construction (`original_config`, `None` when the loaded config was absent or
empty) and the project path.  `saveOk` models whether `_save_config` (a disk
write) succeeds; it is an environment fact, constant for a given run. -/

structure Registry where
  projectPath : String
  config : Yaml
  originalConfig : Option Yaml
  saveOk : Bool

/-- The reserved sentinel written by the placeholder tool. -/
def placeholderValue : String := "DYNVALDYNVALDYNVAL"

/-- The name of the placeholder tool, as used by the Engineer safeguard and
the discovery transition check. -/
def placeholderTool : String := "add_environment_variable_placeholder"

/-- Model of `{status, message, changes}` returned by every mutation tool. -/
structure ToolResult where
  status : String
  message : String
  changes : List (String × String)

/-- Model of `ConfigToolRegistry.add_environment_variable_placeholder`.  Rejects the
reserved name, writes the sentinel at `env.<name>`, persists.  The `none`
branch of `setNestedValue` is the `TypeError` caught by the tool's
`except` clause (no part of the two-segment `env.<name>` path can have been
mutated when it fires). -/
def addEnvironmentVariablePlaceholder (reg : Registry) (name : String) :
    ToolResult × Registry :=
  if name == "igloo_init" then
    ({ status := "failed",
       message := "Cannot modify igloo_init environment variable",
       changes := [] }, reg)
  else
    match setNestedValue reg.config ("env." ++ name) (.str placeholderValue) with
    | none =>
        ({ status := "failed",
           message := "Error adding environment variable: TypeError",
           changes := [] }, reg)
    | some cfg' =>
        if reg.saveOk then
          ({ status := "success",
             message := "Added environment variable " ++ name ++
               " with placeholder value for dynamic discovery",
             changes := [("env_var", name), ("value", placeholderValue)] },
           { reg with config := cfg' })
        else
          ({ status := "failed", message := "Failed to save config",
             changes := [] }, { reg with config := cfg' })

/-- Model of `ConfigToolRegistry.set_environment_variable_value`. -/
def setEnvironmentVariableValue (reg : Registry) (name value : String) :
    ToolResult × Registry :=
  if name == "igloo_init" then
    ({ status := "failed",
       message := "Cannot modify igloo_init environment variable",
       changes := [] }, reg)
  else
    match setNestedValue reg.config ("env." ++ name) (.str value) with
    | none =>
        ({ status := "failed",
           message := "Error setting environment variable value: TypeError",
           changes := [] }, reg)
    | some cfg' =>
        if reg.saveOk then
          ({ status := "success",
             message := "Set environment variable " ++ name ++ " = " ++ value,
             changes := [("env_var", name), ("value", value)] },
           { reg with config := cfg' })
        else
          ({ status := "failed", message := "Failed to save config",
             changes := [] }, { reg with config := cfg' })

/-- Model of `ConfigToolRegistry.remove_environment_variable`. -/
def removeEnvironmentVariable (reg : Registry) (name : String) :
    ToolResult × Registry :=
  if name == "igloo_init" then
    ({ status := "failed",
       message := "Cannot remove igloo_init environment variable",
       changes := [] }, reg)
  else
    match removeNestedValue reg.config ("env." ++ name) with
    | (cfg', true) =>
        if reg.saveOk then
          ({ status := "success",
             message := "Removed environment variable " ++ name,
             changes := [("removed_env_var", name)] },
           { reg with config := cfg' })
        else
          ({ status := "failed", message := "Failed to save config",
             changes := [] }, { reg with config := cfg' })
    | (_, false) =>
        ({ status := "failed",
           message := "Environment variable " ++ name ++ " not found",
           changes := [] }, reg)

/-! ## The Engineer agent (`EngineerAgent.execute_plan` / `_implement_option`)

The LLM resolution step (`_call_llm_for_implementation`) and the semantics of
the tools whose effects live outside the config tree (filesystem probing,
subprocess greps, script replacement) are oracles: the theorems hold for
every behaviour of these collaborators. -/

/-- Model of `{tool, params}` as resolved by the Engineer LLM for one option.  The
modelled LLM emits string-valued parameters, as the tool schemas request. -/
structure ToolCall where
  tool : String
  params : List (String × String)

/-- Model of `ActionRecord` (`src/rehosting/schemas/action_record.py`). -/
structure ActionRecord where
  step_id : String
  tool : String
  input : List (String × String)
  output_uri : String
  summary : String
  status : String

/-- Outcome of `_call_llm_for_implementation` for one option, plus the outer
exception case of `_implement_option`.  The retry loop inside the LLM call
catches every exception, so its only outcomes are a skip, a (possibly empty,
when all retries failed) tool-call list, or — for the enclosing `try` of
`_implement_option` — an exception from auxiliary work before execution. -/
inductive Resolution where
  | skip : String → Resolution
  | exec : List ToolCall → Resolution
  | reasoningError : String → Resolution

/-- The names registered in `ConfigToolRegistry.get_tool`. -/
def registryToolNames : List String :=
  ["change_init_program", "add_environment_variable_placeholder",
   "set_environment_variable_value", "remove_environment_variable",
   "add_pseudofile", "remove_pseudofile", "set_file_read_behavior",
   "grep_strace_output", "replace_script_exit0"]

/-- Positional/keyword signature of each registered tool (used to model the
`TypeError` raised by `tool_func(**params)` on a parameter mismatch). -/
def toolExpectedParams : String → List String
  | "change_init_program" => ["error"]
  | "add_environment_variable_placeholder" => ["name", "reason"]
  | "set_environment_variable_value" => ["name", "value", "reason"]
  | "remove_environment_variable" => ["name", "reason"]
  | "add_pseudofile" => ["filepath", "name", "reason"]
  | "remove_pseudofile" => ["filepath", "reason"]
  | "set_file_read_behavior" => ["filepath", "model", "value", "reason"]
  | "grep_strace_output" => ["grep_command", "reason"]
  | "replace_script_exit0" => ["script_path", "reason"]
  | _ => []

/-- Model of `tool_func(**params)` binds exactly when the supplied keys are exactly the
declared parameters. -/
def paramsBind (expected : List String) (params : List (String × String)) : Bool :=
  expected.all (fun k => (lookupS params k).isSome) &&
    params.all (fun kv => expected.contains kv.1)

/-- Oracle for the tools whose behaviour depends on the environment outside
the config tree (init-program probing, pseudofile bookkeeping is in-config
but filesystem-backed greps and script replacement are not; all six
non-`env` tools are abstracted here). -/
def ExtTool : Type := Registry → ToolCall → ToolResult × Registry

/-- One `tool_func(**params)` invocation as seen by `_implement_option`:
either the tool name is unknown to the registry, or the call itself raises
(parameter mismatch, caught by the per-call `except`), or it returns a
result and the updated registry. -/
inductive CallOutcome where
  | unknownTool : CallOutcome
  | callError : String → CallOutcome
  | result : ToolResult → Registry → CallOutcome

/-- Dispatch of one resolved tool call through `ConfigToolRegistry.get_tool`
and invocation.  The three `env` tools are implemented from the source; the
six others go to the `ext` oracle. -/
def dispatchToolCall (ext : ExtTool) (reg : Registry) (tc : ToolCall) :
    CallOutcome :=
  if registryToolNames.contains tc.tool then
    if paramsBind (toolExpectedParams tc.tool) tc.params then
      if tc.tool == "add_environment_variable_placeholder" then
        let (r, reg') := addEnvironmentVariablePlaceholder reg
          ((lookupS tc.params "name").getD "")
        .result r reg'
      else if tc.tool == "set_environment_variable_value" then
        let (r, reg') := setEnvironmentVariableValue reg
          ((lookupS tc.params "name").getD "") ((lookupS tc.params "value").getD "")
        .result r reg'
      else if tc.tool == "remove_environment_variable" then
        let (r, reg') := removeEnvironmentVariable reg
          ((lookupS tc.params "name").getD "")
        .result r reg'
      else
        let (r, reg') := ext reg tc
        .result r reg'
    else .callError "Tool execution error: TypeError"
  else .unknownTool

/-- The message appended when the cross-option scan finds an earlier
placeholder record (engineer.py line 400; the leading warning emoji of the
source string is elided). -/
def crossOptionBlockedMsg : String :=
  "BLOCKED: add_environment_variable_placeholder already called in a previous option. Only ONE placeholder variable allowed per rehosting cycle."

/-- The message appended when the placeholder tool is requested twice within
the same option (engineer.py line 407). -/
def sameOptionBlockedMsg : String :=
  "BLOCKED: Multiple add_environment_variable_placeholder calls detected. Only ONE allowed."

/-- Running state of the tool-call loop of `_implement_option`. -/
structure CallLoopState where
  reg : Registry
  successCalls : Nat
  placeholderUsed : Bool
  messages : List String

/-- The tool-call loop of `_implement_option` (engineer.py lines 391-446),
translated statement by statement.  For a placeholder call, the scan over
`self.state.action_records` appends one BLOCKED message per earlier
placeholder record, but its `continue` sits inside that inner scan, so it
does not skip the call: only the same-option `placeholder_tool_used` check
actually skips.  `history` is `self.state.action_records` at the time this
option runs. -/
def execToolCalls (ext : ExtTool) (history : List ActionRecord) :
    CallLoopState → List ToolCall → CallLoopState
  | st, [] => st
  | st, tc :: rest =>
      let scanMsgs : List String :=
        List.map (fun _ => crossOptionBlockedMsg)
          (history.filter (fun r => r.tool == placeholderTool))
      let st1 : CallLoopState :=
        if tc.tool == placeholderTool then
          { st with messages := st.messages ++ scanMsgs }
        else st
      if tc.tool == placeholderTool && st1.placeholderUsed then
        execToolCalls ext history
          { st1 with messages := st1.messages ++ [sameOptionBlockedMsg] } rest
      else
        let st2 : CallLoopState :=
          if tc.tool == placeholderTool then { st1 with placeholderUsed := true }
          else st1
        match dispatchToolCall ext st2.reg tc with
        | .unknownTool =>
            execToolCalls ext history
              { st2 with messages := st2.messages ++
                  ["Failed: Unknown tool: " ++ tc.tool] } rest
        | .callError m =>
            execToolCalls ext history
              { st2 with messages := st2.messages ++ ["Error: " ++ m] } rest
        | .result r reg' =>
            if r.status == "success" then
              execToolCalls ext history
                { reg := reg'
                  successCalls := st2.successCalls + 1
                  placeholderUsed := st2.placeholderUsed
                  messages := st2.messages ++ ["Success: " ++ r.message] } rest
            else
              execToolCalls ext history
                { reg := reg'
                  successCalls := st2.successCalls
                  placeholderUsed := st2.placeholderUsed
                  messages := st2.messages ++ ["Failed: " ++ r.message] } rest

/-- Result of `_implement_option` for one option (the keys of the returned
dict that the caller reads). -/
structure ImplResult where
  status : String
  message : String
  filePath : String
  executedTools : List ToolCall

/-- Model of `EngineerAgent._implement_option`: skip, empty tool-call list after
retries, outer exception, or the tool-call loop followed by the
success/partial/failed aggregation.  `executedTools` is the full resolved
list (the source stores `tool_calls`, executed or not). -/
def implementOption (ext : ExtTool) (reg : Registry)
    (history : List ActionRecord) (res : Resolution) : ImplResult × Registry :=
  match res with
  | .reasoningError m =>
      ({ status := "failed", message := "Exception during LLM reasoning: " ++ m,
         filePath := "", executedTools := [] }, reg)
  | .skip reason =>
      ({ status := "skipped", message := "Skipped: " ++ reason,
         filePath := "", executedTools := [] }, reg)
  | .exec [] =>
      ({ status := "failed",
         message := "LLM failed to generate valid tool calls after retries",
         filePath := "", executedTools := [] }, reg)
  | .exec calls =>
      let st := execToolCalls ext history
        { reg := reg, successCalls := 0, placeholderUsed := false,
          messages := [] } calls
      let status :=
        if st.successCalls == calls.length then "success"
        else if st.successCalls > 0 then "partial"
        else "failed"
      let message :=
        if st.successCalls == calls.length then
          "All " ++ toString calls.length ++ " tool calls executed successfully"
        else if st.successCalls > 0 then
          toString st.successCalls ++ "/" ++ toString calls.length ++
            " tool calls succeeded"
        else "All tool calls failed"
      ({ status := status, message := message,
         filePath := reg.projectPath ++ "/config.yaml",
         executedTools := calls }, st.reg)

/-- The sort key of `execute_plan`:
`priority_order.get(opt.get("priority"), 999)`. -/
def priorityRank (o : OptionDict) : Nat :=
  match lookupJ o "priority" with
  | some (.str "critical") => 0
  | some (.str "high") => 1
  | some (.str "medium") => 2
  | some (.str "low") => 3
  | _ => 999

/-- Model of `sorted(plan.options, key=priority_order.get(..., 999))`.  Python's
`sorted` is documented stable; on the finite key range {0,1,2,3,999} a
stable sort by key is exactly this bucket concatenation. -/
def sortOptionsByPriority (opts : List OptionDict) : List OptionDict :=
  (opts.filter (fun o => priorityRank o == 0)) ++
  (opts.filter (fun o => priorityRank o == 1)) ++
  (opts.filter (fun o => priorityRank o == 2)) ++
  (opts.filter (fun o => priorityRank o == 3)) ++
  (opts.filter (fun o => priorityRank o == 999))

/-- The per-round cap of `execute_plan`: slice to `max_options` when the cap
is positive and the sorted list is longer. -/
def capOptions (maxOptions : Nat) (opts : List OptionDict) : List OptionDict :=
  if maxOptions > 0 && decide (opts.length > maxOptions) then
    opts.take maxOptions
  else opts

/-- The option sequence `execute_plan` actually iterates: sorted by priority,
then capped. -/
def engineerSelect (maxOptions : Nat) (opts : List OptionDict) :
    List OptionDict :=
  capOptions maxOptions (sortOptionsByPriority opts)

/-- Model of `option.get("option_id", str(i))`, followed by the pydantic validation of
`ActionRecord.step_id : str` (a non-string `option_id` makes the
`ActionRecord(...)` constructor raise, which escapes `execute_plan`). -/
def optionStepId (i : Nat) (o : OptionDict) : Except String String :=
  match lookupJ o "option_id" with
  | some (.str s) => .ok s
  | some _ => .error "ValidationError: ActionRecord.step_id must be a string"
  | none => .ok (toString i)

/-- Aggregated results of `execute_plan` (the keys of its returned dict the
claims are about), plus the final registry. -/
structure ExecResults where
  records : List ActionRecord
  completed : Nat
  failed : Nat
  skipped : Nat
  reg : Registry

/-- The option loop of `execute_plan` (engineer.py lines 223-305): resolve
each option (via the `resolve` oracle, indexed by position in the executed
sequence), run its tool calls, then append one `ActionRecord` per option
whose `tool`/`input` come from the FIRST resolved tool call whether or not
that call executed. -/
def execOptionsLoop (ext : ExtTool) (resolve : Nat → Resolution) :
    Registry → Nat → List ActionRecord → Nat → Nat → Nat → List OptionDict →
    Except String ExecResults
  | reg, _, history, c, f, s, [] =>
      .ok { records := history, completed := c, failed := f, skipped := s,
            reg := reg }
  | reg, i, history, c, f, s, o :: rest =>
      match optionStepId i o with
      | .error e => .error e
      | .ok sid =>
          let (ir, reg') := implementOption ext reg history (resolve (i - 1))
          let firstCall := ir.executedTools.head?
          let record : ActionRecord :=
            { step_id := sid,
              tool := match firstCall with
                | some tc => tc.tool
                | none => "unknown",
              input := match firstCall with
                | some tc => tc.params
                | none => [],
              output_uri := ir.filePath,
              summary := ir.message,
              status := ir.status }
          let c' := if ir.status == "success" then c + 1 else c
          let s' := if ir.status == "success" then s
            else if ir.status == "skipped" then s + 1 else s
          let f' := if ir.status == "success" || ir.status == "skipped" then f
            else f + 1
          execOptionsLoop ext resolve reg' (i + 1) (history ++ [record])
            c' f' s' rest

/-- Model of `EngineerAgent.execute_plan`: reset the per-plan state
(`self.state = EngineerState()`), sort and cap the options, run the loop. -/
def executePlan (ext : ExtTool) (resolve : Nat → Resolution)
    (maxOptions : Nat) (reg : Registry) (opts : List OptionDict) :
    Except String ExecResults :=
  execOptionsLoop ext resolve reg 1 [] 0 0 0 (engineerSelect maxOptions opts)

/-- The state updates returned by `EngineerAgent.__call__` that the workflow
reads. -/
structure EngineerUpdates where
  actions : List ActionRecord
  discoveryMode : Bool

/-- Model of `EngineerAgent.__call__`: without a plan, return empty updates with
`discovery_mode = False`; with one, execute it and likewise return
`discovery_mode = False` (both branches hard-code the exit). -/
def engineerCall (ext : ExtTool) (resolve : Nat → Resolution)
    (maxOptions : Nat) (reg : Registry) (planOptions : Option (List OptionDict)) :
    Except String (EngineerUpdates × Registry) :=
  match planOptions with
  | none => .ok ({ actions := [], discoveryMode := false }, reg)
  | some opts =>
      match executePlan ext resolve maxOptions reg opts with
      | .error e => .error e
      | .ok r => .ok ({ actions := r.records, discoveryMode := false }, r.reg)

/-! ## Discovery-mode transitions and the iteration loop
(`src/rehosting/rehosting_workflow.py`) -/

/-- Model of `_check_discovery_mode_transitions`.  `finalDM` is
`final_state.get("discovery_mode")` (`none` when the key is absent;
`== False` in the source is true only for an actual `False`).  Exit is
checked first; entry scans the round's records for ANY record whose `tool`
is the placeholder tool, reading `input.get("name", "unknown")` of the
first hit. -/
def checkDiscoveryModeTransitions (actions : List ActionRecord)
    (discoveryMode : Bool) (discoveryVariable : Option String)
    (finalDM : Option Bool) : Bool × Option String :=
  if discoveryMode && (finalDM == some false) then (false, none)
  else if !discoveryMode then
    match actions.find? (fun a => a.tool == placeholderTool) with
    | some a => (true, some ((lookupS a.input "name").getD "unknown"))
    | none => (discoveryMode, discoveryVariable)
  else (discoveryMode, discoveryVariable)

/-- The parts of the multi-agent `final_state` that the round body of
`rehost_firmware` reads.  `plan` is truthy exactly when present (the planner
returns an object, never a falsy value). -/
structure FinalState where
  plan : Option (List OptionDict)
  actions : List ActionRecord
  discoveryMode : Option Bool

/-- Behaviour of the `try` block of one round of `rehost_firmware` (context
building, workflow construction, planner and engineer): it either raises —
caught at the loop boundary — or delivers a final state. -/
inductive WorkflowRoundOutcome where
  | raisedE : String → WorkflowRoundOutcome
  | finishedE : FinalState → WorkflowRoundOutcome

/-- The discovery-state and error-list update performed by one round body of
`rehost_firmware` (lines 319-394): an exception appends an error and leaves
the discovery state untouched; a final state without a plan appends an error
and skips the transition check; one with a plan runs
`_check_discovery_mode_transitions`. -/
def roundStateUpdate (o : WorkflowRoundOutcome) (dm : Bool)
    (dv : Option String) (errors : List String) :
    Bool × Option String × List String :=
  match o with
  | .raisedE m => (dm, dv, errors ++ ["Multi-agent workflow failed: " ++ m])
  | .finishedE fs =>
      match fs.plan with
      | none =>
          (dm, dv, errors ++ ["Multi-agent workflow failed to generate plan"])
      | some _ =>
          let (dm', dv') :=
            checkDiscoveryModeTransitions fs.actions dm dv fs.discoveryMode
          (dm', dv', errors)

/-- Behaviour of `_run_penguin_iteration` (the external engine run at line
314, OUTSIDE the `try` block): it either raises or returns results. -/
inductive EngineRun where
  | raisedR : String → EngineRun
  | ran : EngineRun

/-- Per-round behaviour of the external collaborators of `rehost_firmware`:
the engine run and the guarded multi-agent block. -/
structure RoundBehavior where
  engine : EngineRun
  agent : WorkflowRoundOutcome

/-- What `rehost_firmware` delivers when it returns normally: the number of
completed rounds, the accumulated error list, and the `success` flag — set
to `True` unconditionally after the loop (line 399). -/
structure RunSummary where
  iterationsCompleted : Nat
  errors : List String
  success : Bool

/-- The main loop of `rehost_firmware` (`for i in range(max_iter)`), with
the final-summary epilogue.  An exception from the engine run is NOT inside
the round's `try` and escapes the whole function (the `.error` branch); an
exception from the multi-agent block is appended to `errors` and the loop
proceeds. -/
def rehostIterationsGo (rounds : Nat → RoundBehavior) :
    Nat → Nat → Bool → Option String → List String →
    Except String (Bool × Option String × List String)
  | _, 0, dm, dv, errors => .ok (dm, dv, errors)
  | i, n + 1, dm, dv, errors =>
      match (rounds i).engine with
      | .raisedR m => .error m
      | .ran =>
          let (dm', dv', errors') := roundStateUpdate (rounds i).agent dm dv errors
          rehostIterationsGo rounds (i + 1) n dm' dv' errors'

/-- Model of `rehost_firmware` from the top of the loop: starts in Normal discovery
state with no errors; on normal termination reports all `max_iter` rounds
completed and `success = True`. -/
def rehostIterations (maxIter : Nat) (rounds : Nat → RoundBehavior) :
    Except String RunSummary :=
  match rehostIterationsGo rounds 0 maxIter false none [] with
  | .error m => .error m
  | .ok (_, _, errors) =>
      .ok { iterationsCompleted := maxIter, errors := errors, success := true }

/-! ## The configuration diff (`ConfigToolRegistry.get_config_diff`)

`yaml.dump(..., default_flow_style=False, sort_keys=False)` and
`difflib.unified_diff` are standard-library calls, modelled from their
documented behaviour: the dump is a deterministic block-style rendering in
insertion order; the diff of two line sequences is empty exactly when they
are equal, and otherwise consists of the two file headers, a hunk header,
and the changed region with old lines marked `-` and new lines marked `+`. -/

/-- Python truthiness of the stored baseline (`if not self.original_config`). -/
def yamlTruthy : Yaml → Bool
  | .null => false
  | .boolV b => b
  | .numV n => n != 0
  | .str s => s != ""
  | .dict es => !es.isEmpty

/-- Scalar rendering inside the YAML dump model. -/
def scalarDump : Yaml → String
  | .null => "null"
  | .boolV true => "true"
  | .boolV false => "false"
  | .numV n => toString n
  | .str s => s
  | .dict _ => ""

/-- Block-style rendering of the entries of a mapping, two-space nested,
insertion order preserved (model of `yaml.dump` with
`default_flow_style=False, sort_keys=False`). -/
def dumpEntries (ind : String) : List (String × Yaml) → List String
  | [] => []
  | (k, v) :: rest =>
      (match v with
       | .dict [] => [ind ++ k ++ ": {}"]
       | .dict es' => (ind ++ k ++ ":") :: dumpEntries (ind ++ "  ") es'
       | sc => [ind ++ k ++ ": " ++ scalarDump sc]) ++ dumpEntries ind rest

/-- The dumped YAML document, as a line list. -/
def dumpYamlLines : Yaml → List String
  | .dict [] => ["{}"]
  | .dict es => dumpEntries "" es
  | v => [scalarDump v]

/-- Length of the longest common prefix of two line sequences. -/
def commonLead : List String → List String → Nat
  | a :: as, b :: bs => if a == b then commonLead as bs + 1 else 0
  | _, _ => 0

/-- Model of `difflib.unified_diff(a, b, fromfile="original config.yaml",
tofile="current config.yaml", lineterm="")` as a line list: nothing for
equal inputs; headers, one hunk header and the changed region (computed by
stripping the common lead and common trail) otherwise. -/
def unifiedDiffLines (a b : List String) : List String :=
  let lead := commonLead a b
  let a1 := a.drop lead
  let b1 := b.drop lead
  let trail := commonLead a1.reverse b1.reverse
  let midA := a1.take (a1.length - trail)
  let midB := b1.take (b1.length - trail)
  if midA.isEmpty && midB.isEmpty then []
  else
    ["--- original config.yaml", "+++ current config.yaml",
     "@@ -" ++ toString (lead + 1) ++ "," ++ toString midA.length ++
       " +" ++ toString (lead + 1) ++ "," ++ toString midB.length ++ " @@"] ++
    midA.map (fun l => "-" ++ l) ++ midB.map (fun l => "+" ++ l)

/-- Model of `"".join(diff_lines)` of the source, newline-glued in the model. -/
def joinedLines : List String → String
  | [] => ""
  | [l] => l
  | l :: rest => l ++ "\n" ++ joinedLines rest

/-- The string returned when no usable baseline exists. -/
def noBaselineMsg : String := "No original config to compare against"

/-- Model of `ConfigToolRegistry.get_config_diff`: the placeholder message when the
baseline is absent or falsy (an empty mapping), the unified text diff of the
two YAML dumps otherwise. -/
def getConfigDiff (reg : Registry) : String :=
  match reg.originalConfig with
  | none => noBaselineMsg
  | some o =>
      if !yamlTruthy o then noBaselineMsg
      else joinedLines
        (unifiedDiffLines (dumpYamlLines o) (dumpYamlLines reg.config))

/-! ## The firmware planner (`FirmwarePlannerAgent` of
`src/rehosting/agents/planner.py`)

`json.loads` is modelled by an executable fuel-bounded JSON parser (objects,
arrays, strings with the common escapes, integers, literals; floating-point
numbers are outside the model).  The Python string helpers `str.find`,
slicing and `str.strip` used by the fence-extraction branch are modelled
with their documented index semantics. -/

/-- JSON/Python whitespace. -/
def isWsChar (c : Char) : Bool :=
  c == ' ' || c == '\n' || c == '\t' || c == '\r'

/-- Drop leading whitespace. -/
def skipWs : List Char → List Char
  | [] => []
  | c :: cs => if isWsChar c then skipWs cs else c :: cs

/-- Value of one hexadecimal digit. -/
def hexVal (c : Char) : Option Nat :=
  if c.isDigit then some (c.toNat - 48)
  else if 97 ≤ c.toNat && c.toNat ≤ 102 then some (c.toNat - 87)
  else if 65 ≤ c.toNat && c.toNat ≤ 70 then some (c.toNat - 55)
  else none

/-- Body of a JSON string after the opening quote: returns the decoded
content and the input after the closing quote.  The escapes are those of
`json.loads`, including `\uXXXX`; a code unit that is not a valid scalar
(a lone surrogate, which Python keeps in the str) decodes to the
replacement of `Char.ofNat` — the parse success itself is faithful. -/
def parseStrBody : Nat → List Char → String → Option (String × List Char)
  | 0, _, _ => none
  | _ + 1, [], _ => none
  | fuel + 1, c :: cs, acc =>
      if c == '"' then some (acc, cs)
      else if c == '\\' then
        match cs with
        | [] => none
        | e :: cs' =>
            if e == '"' then parseStrBody fuel cs' (acc.push '"')
            else if e == '\\' then parseStrBody fuel cs' (acc.push '\\')
            else if e == '/' then parseStrBody fuel cs' (acc.push '/')
            else if e == 'b' then parseStrBody fuel cs' (acc.push (Char.ofNat 8))
            else if e == 'f' then parseStrBody fuel cs' (acc.push (Char.ofNat 12))
            else if e == 'n' then parseStrBody fuel cs' (acc.push '\n')
            else if e == 't' then parseStrBody fuel cs' (acc.push '\t')
            else if e == 'r' then parseStrBody fuel cs' (acc.push '\r')
            else if e == 'u' then
              match cs' with
              | h1 :: h2 :: h3 :: h4 :: cs'' =>
                  match hexVal h1, hexVal h2, hexVal h3, hexVal h4 with
                  | some v1, some v2, some v3, some v4 =>
                      parseStrBody fuel cs''
                        (acc.push (Char.ofNat
                          (((v1 * 16 + v2) * 16 + v3) * 16 + v4)))
                  | _, _, _, _ => none
              | _ => none
            else none
      else parseStrBody fuel cs (acc.push c)

/-- Split leading decimal digits. -/
def spanDigits : List Char → List Char × List Char
  | [] => ([], [])
  | c :: cs =>
      if c.isDigit then
        let (d, r) := spanDigits cs
        (c :: d, r)
      else ([], c :: cs)

/-- Decimal value of a digit list. -/
def digitsVal : List Char → Nat → Nat
  | [], acc => acc
  | c :: cs, acc => digitsVal cs (acc * 10 + (c.toNat - 48))

/-- The JSON integer-part grammar of `json.loads`: a lone `0`, or a nonzero
digit followed by digits (no leading zeros). -/
def spanIntPart : List Char → Option (List Char × List Char)
  | [] => none
  | c :: cs =>
      if c == '0' then some (['0'], cs)
      else if c.isDigit then
        match spanDigits cs with
        | (d, r) => some (c :: d, r)
      else none

/-- The optional fractional part: a dot must be followed by at least one
digit. -/
def parseFracPart : List Char → Option (Option (List Char) × List Char)
  | '.' :: r2 =>
      (match spanDigits r2 with
       | ([], _) => none
       | (ds, r3) => some (some ds, r3))
  | cs => some (none, cs)

/-- The optional exponent part: `e` or `E`, an optional sign, at least one
digit. -/
def parseExpPart : List Char → Option (Option Int × List Char)
  | [] => some (none, [])
  | c :: cs =>
      if c == 'e' || c == 'E' then
        match cs with
        | '+' :: cs2 =>
            (match spanDigits cs2 with
             | ([], _) => none
             | (ds, r) => some (some (Int.ofNat (digitsVal ds 0)), r))
        | '-' :: cs2 =>
            (match spanDigits cs2 with
             | ([], _) => none
             | (ds, r) => some (some (-(Int.ofNat (digitsVal ds 0))), r))
        | _ =>
            (match spanDigits cs with
             | ([], _) => none
             | (ds, r) => some (some (Int.ofNat (digitsVal ds 0)), r))
      else some (none, c :: cs)

/-- A JSON number starting at its first digit: an integer when neither a
fractional nor an exponent part follows, a float otherwise (the mantissa is
the integer and fractional digits; the decimal exponent is adjusted by the
fractional length). -/
def parseNumberTail (neg : Bool) (cs : List Char) : Option (Json × List Char) :=
  match spanIntPart cs with
  | none => none
  | some (intDs, r1) =>
      match parseFracPart r1 with
      | none => none
      | some (fracDs?, r4) =>
          match parseExpPart r4 with
          | none => none
          | some (exp?, r5) =>
              match fracDs?, exp? with
              | none, none =>
                  let n := Int.ofNat (digitsVal intDs 0)
                  some (.numV (if neg then -n else n), r5)
              | _, _ =>
                  let fracDs := fracDs?.getD []
                  let mant := digitsVal (intDs ++ fracDs) 0
                  let e10 := exp?.getD 0 - Int.ofNat fracDs.length
                  some (.floatV (.finite neg mant e10), r5)

/-- Parser mode: a value, the tail of an array, or the tail of an object
(with the accumulated items; object items accumulate with Python-dict
update, so duplicate keys resolve last-wins at first position). -/
inductive PMode where
  | value : PMode
  | arrItems : List Json → PMode
  | objItems : List (String × Json) → PMode

/-- Fuel-bounded recursive-descent JSON parser. -/
def parseJsonF : Nat → PMode → List Char → Option (Json × List Char)
  | 0, _, _ => none
  | fuel + 1, .value, cs0 =>
      match skipWs cs0 with
      | [] => none
      | c :: rest =>
          if c == '"' then
            match parseStrBody (fuel + 1) rest "" with
            | some (s, r) => some (.str s, r)
            | none => none
          else if c == '{' then
            match skipWs rest with
            | '}' :: r => some (.obj [], r)
            | _ => parseJsonF fuel (.objItems []) rest
          else if c == '[' then
            match skipWs rest with
            | ']' :: r => some (.arr [], r)
            | _ => parseJsonF fuel (.arrItems []) rest
          else if c == 't' then
            match rest with
            | 'r' :: 'u' :: 'e' :: r => some (.boolV true, r)
            | _ => none
          else if c == 'f' then
            match rest with
            | 'a' :: 'l' :: 's' :: 'e' :: r => some (.boolV false, r)
            | _ => none
          else if c == 'n' then
            match rest with
            | 'u' :: 'l' :: 'l' :: r => some (.null, r)
            | _ => none
          else if c == 'N' then
            match rest with
            | 'a' :: 'N' :: r => some (.floatV .nan, r)
            | _ => none
          else if c == 'I' then
            match rest with
            | 'n' :: 'f' :: 'i' :: 'n' :: 'i' :: 't' :: 'y' :: r =>
                some (.floatV (.inf false), r)
            | _ => none
          else if c == '-' then
            match rest with
            | 'I' :: 'n' :: 'f' :: 'i' :: 'n' :: 'i' :: 't' :: 'y' :: r =>
                some (.floatV (.inf true), r)
            | _ => parseNumberTail true rest
          else if c.isDigit then
            parseNumberTail false (c :: rest)
          else none
  | fuel + 1, .arrItems acc, cs =>
      match parseJsonF fuel .value cs with
      | none => none
      | some (v, r) =>
          match skipWs r with
          | ',' :: r' => parseJsonF fuel (.arrItems (acc ++ [v])) r'
          | ']' :: r' => some (.arr (acc ++ [v]), r')
          | _ => none
  | fuel + 1, .objItems acc, cs =>
      match skipWs cs with
      | '"' :: cs' =>
          match parseStrBody (fuel + 1) cs' "" with
          | none => none
          | some (k, r1) =>
              match skipWs r1 with
              | ':' :: r2 =>
                  match parseJsonF fuel .value r2 with
                  | none => none
                  | some (v, r3) =>
                      match skipWs r3 with
                      | ',' :: r4 => parseJsonF fuel (.objItems (setKeyJ acc k v)) r4
                      | '}' :: r4 => some (.obj (setKeyJ acc k v), r4)
                      | _ => none
              | _ => none
      | _ => none

/-- Model of `json.loads`: parse one value, then require only whitespace to follow. -/
def jsonLoads (s : String) : Option Json :=
  match parseJsonF (2 * s.length + 4) .value s.data with
  | some (j, rest) => if (skipWs rest).isEmpty then some j else none
  | none => none

/-- Does `l` start with `pat`? -/
def listStartsWith : List Char → List Char → Bool
  | _, [] => true
  | [], _ :: _ => false
  | c :: cs, p :: ps => c == p && listStartsWith cs ps

/-- Worker for `pyFind`. -/
def pyFindAux (pat : List Char) : List Char → Nat → Int
  | [], i => if pat.isEmpty then Int.ofNat i else -1
  | l, i =>
      if listStartsWith l pat then Int.ofNat i
      else match l with
        | [] => -1
        | _ :: cs => pyFindAux pat cs (i + 1)

/-- Python `s.find(sub, start)`: index of the first occurrence at or after
`start`, `-1` when absent. -/
def pyFind (s sub : String) (start : Nat) : Int :=
  pyFindAux sub.data (s.data.drop start) start

/-- Python `sub in s` (substring containment). -/
def strContainsPy (s sub : String) : Bool := pyFind s sub 0 ≥ 0

/-- Python `s[start:stop]` with a possibly negative `stop`. -/
def pySlice (s : String) (start : Nat) (stop : Int) : String :=
  let n := s.data.length
  let j := if stop < 0 then (Int.ofNat n + stop).toNat else min stop.toNat n
  String.mk ((s.data.take j).drop start)

/-- Python `s.strip()` (over the model's whitespace alphabet). -/
def pyStrip (s : String) : String :=
  String.mk (((s.data.dropWhile isWsChar).reverse.dropWhile isWsChar).reverse)

/-- The fenced-code-block extraction of `_parse_plan` (planner.py lines
203-210): locate ```` ```json ```` or ```` ``` ````, skip to after the next
newline, cut at the next ```` ``` ````, strip. -/
def extractFencedJson (response : String) : String :=
  let js0 : Int :=
    let j := pyFind response "```json" 0
    if j == -1 then pyFind response "```" 0 else j
  let js1 : Nat := (pyFind response "\n" js0.toNat + 1).toNat
  let je : Int := pyFind response "```" js1
  pyStrip (pySlice response js1 je)

/-- The two parse attempts of `_parse_plan`: direct `json.loads`, then the
fence-extraction branch when a fence marker is present.  Both failure
messages are `json.JSONDecodeError`s, caught by the retry loop. -/
def parsePlanData (response : String) : Except String Json :=
  match jsonLoads response with
  | some j => .ok j
  | none =>
      if strContainsPy response "```json" || strContainsPy response "```" then
        match jsonLoads (extractFencedJson response) with
        | some j => .ok j
        | none => .error "Failed to parse JSON from response"
      else .error "Response is not valid JSON"

/-- Model of `FirmwareConfigPlan` (pydantic: `id : str`, `objectives : List[str]`,
`options : List[Dict[str, Any]]`). -/
structure FirmwareConfigPlan where
  id : String
  objectives : List String
  options : List OptionDict

/-- Outcome of `_parse_plan` as the retry loop of `plan()` sees it: a plan,
an exception of one of the caught classes (`json.JSONDecodeError`,
`ValueError`, `KeyError`), or an exception that escapes `plan()`
(a `TypeError` from applying dict operations to a non-dict). -/
inductive ParseOutcome where
  | okP : FirmwareConfigPlan → ParseOutcome
  | caught : String → ParseOutcome
  | uncaught : String → ParseOutcome

/-- The four admissible priorities. -/
def validPriorities : List String := ["critical", "high", "medium", "low"]

/-- The per-option required fields of `_parse_plan`. -/
def optionRequiredFields : List String :=
  ["option_id", "description", "problem", "solution", "priority"]

/-- The per-option validation loop of `_parse_plan` (lines 233-244):
`none` when all options pass, or the first caught error. -/
def checkOptionsList : List Json → Option String
  | [] => none
  | o :: rest =>
      match o with
      | .obj kvs =>
          if !(optionRequiredFields.filter
              (fun f => (lookupJ kvs f).isNone)).isEmpty then
            some "Option missing required fields"
          else
            match lookupJ kvs "priority" with
            | some (.str p) =>
                if validPriorities.contains p then checkOptionsList rest
                else some "Option has invalid priority"
            | some _ => some "Option has invalid priority"
            | none => some "Option missing required fields"
      | _ => some "Option must be a dictionary"

/-- pydantic validation of the elements of `objectives : List[str]`. -/
def decodeStrList : List Json → Option (List String)
  | [] => some []
  | .str s :: rest =>
      match decodeStrList rest with
      | some tl => some (s :: tl)
      | none => none
  | _ => none

/-- pydantic validation of `objectives : List[str]`. -/
def decodeObjectives : Json → Option (List String)
  | .arr xs => decodeStrList xs
  | _ => none

/-- pydantic validation of `options : List[Dict[str, Any]]`. -/
def decodeOptionsArr : List Json → Option (List OptionDict)
  | [] => some []
  | .obj kvs :: rest =>
      match decodeOptionsArr rest with
      | some tl => some (kvs :: tl)
      | none => none
  | _ => none

/-- The validation `_parse_plan` performs on a dict `plan_data` (lines
219-251): required fields, id synthesis for a missing/falsy id, the options
checks, then the pydantic instantiation.  Every failure here is one of the
caught exception classes. -/
def planObjChecks (uuid : String) (kvs : List (String × Json)) :
    Except String FirmwareConfigPlan :=
  if !((["objectives", "options"].filter
      (fun f => (lookupJ kvs f).isNone)).isEmpty) then
    .error "Missing required fields"
  else
    let kvs1 :=
      match lookupJ kvs "id" with
      | none => setKeyJ kvs "id" (.str ("fw_plan_" ++ uuid))
      | some v =>
          if !jsonTruthy v then setKeyJ kvs "id" (.str ("fw_plan_" ++ uuid))
          else kvs
    match lookupJ kvs1 "options" with
    | some (.arr opts) =>
        match checkOptionsList opts with
        | some e => .error e
        | none =>
            match lookupJ kvs1 "id", lookupJ kvs1 "objectives" with
            | some (.str idv), some objsJ =>
                match decodeObjectives objsJ, decodeOptionsArr opts with
                | some objs, some opts' =>
                    .ok { id := idv, objectives := objs, options := opts' }
                | _, _ =>
                    .error "Failed to instantiate firmware plan schema"
            | _, _ => .error "Failed to instantiate firmware plan schema"
    | some _ => .error "options must be a list"
    | none => .error "Missing required fields"

/-- Everything `_parse_plan` does after obtaining `plan_data` (lines
219-251), including the Python semantics of `in`, item access and item
assignment on each possible top-level type: on a dict the declared checks
run and every failure is a caught class; on a list or string whose
"membership" test passes the required-fields check, the subsequent `id`
access or assignment raises an uncaught `TypeError`; on a non-iterable the
very first membership test raises an uncaught `TypeError`. -/
def planDataChecks (uuid : String) (j : Json) : ParseOutcome :=
  match j with
  | .obj kvs =>
      match planObjChecks uuid kvs with
      | .ok p => .okP p
      | .error e => .caught e
  | .arr xs =>
      let hasF := fun (f : String) => xs.any (fun e =>
        match e with
        | .str s => s == f
        | _ => false)
      if hasF "objectives" && hasF "options" then
        .uncaught "TypeError: list indices must be integers"
      else .caught "Missing required fields"
  | .str s =>
      if strContainsPy s "objectives" && strContainsPy s "options" then
        .uncaught "TypeError: string indices must be integers"
      else .caught "Missing required fields"
  | _ => .uncaught "TypeError: argument is not iterable"

/-- Model of `FirmwarePlannerAgent._parse_plan` on one response string. -/
def parsePlan (uuid : String) (response : String) : ParseOutcome :=
  match parsePlanData response with
  | .error e => .caught e
  | .ok j => planDataChecks uuid j

/-- Model of `FirmwarePlannerAgent._create_fallback_plan` (planner.py lines 494-526).
The `response` argument is accepted but never used by the source; the
leading warning emoji of the objective string is elided.  The pydantic
instantiation of this data cannot fail, so the dict-returning branch is
dead. -/
def createFallbackPlan (uuid : String) (maxRetries : Nat)
    (error response : String) : FirmwareConfigPlan :=
  { id := "fw_plan_" ++ uuid
    objectives := ["Parse error - manual intervention needed"]
    options := [[("option_id", .str "1"),
      ("description", .str ("Failed to parse LLM response after " ++
        toString maxRetries ++ " attempts")),
      ("problem", .str ("LLM response parsing failed: " ++ error)),
      ("solution", .str "Manual review and intervention required"),
      ("priority", .str "critical"),
      ("impact", .str "requires_manual_intervention")]] }

/-- The retry loop of `FirmwarePlannerAgent.plan` (lines 150-181), over the
per-attempt outcomes of `_call_llm` (`.error` = the chat call raised; none
of `json.JSONDecodeError`/`ValueError`/`KeyError` matches such an exception,
so it escapes).  Returns the plan and the number of LLM calls made, or the
escaping exception.  `uuid` stands in for the random ids. -/
def planRunGo (uuid : String) (mrTotal : Nat) :
    List (Except String String) → Except String (FirmwareConfigPlan × Nat)
  | [] => .ok (createFallbackPlan uuid mrTotal "Unknown error" "No response", 0)
  | [o] =>
      match o with
      | .error e => .error e
      | .ok resp =>
          match parsePlan uuid resp with
          | .okP p => .ok (p, 1)
          | .caught m => .ok (createFallbackPlan uuid mrTotal m resp, 1)
          | .uncaught m => .error m
  | o :: rest =>
      match o with
      | .error e => .error e
      | .ok resp =>
          match parsePlan uuid resp with
          | .okP p => .ok (p, 1)
          | .caught _ =>
              match planRunGo uuid mrTotal rest with
              | .ok (p, n) => .ok (p, n + 1)
              | .error e => .error e
          | .uncaught m => .error m

/-- Model of `plan()` with `max_retries = outcomes.length` attempts available. -/
def planRun (uuid : String) (outcomes : List (Except String String)) :
    Except String (FirmwareConfigPlan × Nat) :=
  planRunGo uuid outcomes.length outcomes

/-- Schema validity of a plan, as the spec states it: every option carries
the required fields and one of the four priorities. -/
def validPlanB (p : FirmwareConfigPlan) : Bool :=
  p.options.all (fun o =>
    optionRequiredFields.all (fun f => (lookupJ o f).isSome) &&
    (match lookupJ o "priority" with
     | some (.str pr) => validPriorities.contains pr
     | _ => false))

/-- A stub behaviour for the abstracted tools (never reached in the concrete
runs below). -/
def extStub : ExtTool := fun reg _ =>
  ({ status := "failed", message := "stub", changes := [] }, reg)

/-- A fresh registry over an empty configuration, as built for a project
whose `config.yaml` holds an empty mapping. -/
def regEmpty : Registry :=
  { projectPath := "/proj", config := .dict [], originalConfig := none,
    saveOk := true }

/-- A plan option with id "1" and priority "high". -/
def optHigh1 : OptionDict := [("option_id", .str "1"), ("priority", .str "high")]

/-- A plan option with id "2" and priority "high". -/
def optHigh2 : OptionDict := [("option_id", .str "2"), ("priority", .str "high")]

/-- Resolution oracle for the C1 failing input: each of the two options
resolves to a single placeholder call, for distinct variables. -/
def resolveTwoPlaceholders : Nat → Resolution := fun i =>
  if i == 0 then
    .exec [{ tool := placeholderTool, params := [("name", "var1"), ("reason", "r")] }]
  else
    .exec [{ tool := placeholderTool, params := [("name", "var2"), ("reason", "r")] }]

/-- Resolution oracle for the C10 failing input: the first option's
placeholder call is rejected by the tool (reserved name), the second
requests a placeholder for "bar". -/
def resolveRejectedThenPlaceholder : Nat → Resolution := fun i =>
  if i == 0 then
    .exec [{ tool := placeholderTool,
             params := [("name", "igloo_init"), ("reason", "r")] }]
  else
    .exec [{ tool := placeholderTool, params := [("name", "bar"), ("reason", "r")] }]

/-- The `ActionRecord` produced for the first option of the C10 failing
input (placeholder rejected on the reserved name). -/
def failedPlaceholderRecord : ActionRecord :=
  { step_id := "1", tool := placeholderTool,
    input := [("name", "igloo_init"), ("reason", "r")],
    output_uri := "/proj/config.yaml", summary := "All tool calls failed",
    status := "failed" }

/-- Options carrying only a priority, for the ordering example of the spec. -/
def optLow : OptionDict := [("priority", .str "low")]

/-- See `optLow`. -/
def optCritical : OptionDict := [("priority", .str "critical")]

/-- See `optLow`. -/
def optMedium : OptionDict := [("priority", .str "medium")]

/-- See `optLow`. -/
def optHigh : OptionDict := [("priority", .str "high")]

/-- A round record of a FAILED placeholder-add attempt for `sxid`. -/
def sxidFailedRecord : ActionRecord :=
  { step_id := "1", tool := placeholderTool,
    input := [("name", "sxid"), ("reason", "r")],
    output_uri := "/proj/config.yaml", summary := "All tool calls failed",
    status := "failed" }

/-- A round record of a successful placeholder-add for `sxid`. -/
def sxidSuccessRecord : ActionRecord :=
  { step_id := "1", tool := placeholderTool,
    input := [("name", "sxid"), ("reason", "r")],
    output_uri := "/proj/config.yaml",
    summary := "All 1 tool calls executed successfully", status := "success" }

/-- Every option's `option_id`, when present, is a string — under this
condition the `ActionRecord` constructions of `execute_plan` cannot raise. -/
def wfOptionIds (opts : List OptionDict) : Bool :=
  opts.all (fun o =>
    match lookupJ o "option_id" with
    | some (.str _) => true
    | none => true
    | some _ => false)

theorem splitDotsGo_ne_nil (cs : List Char) :
    ∀ acc, splitDotsGo cs acc ≠ [] := by
  induction cs with
  | nil => intro acc; simp [splitDotsGo]
  | cons c cs ih =>
      intro acc
      by_cases h : c == '.'
      · simp [splitDotsGo, h]
      · simp only [splitDotsGo, h]
        simpa using ih (c :: acc)

theorem splitPath_ne_nil (path : String) : splitPath path ≠ [] :=
  splitDotsGo_ne_nil path.data []

theorem lookupD_setKeyD_self (es : List (String × Yaml)) (k : String) (v : Yaml) :
    lookupD (setKeyD es k v) k = some v := by
  induction es with
  | nil => simp [setKeyD, lookupD]
  | cons hd tl ih =>
      obtain ⟨k', v'⟩ := hd
      by_cases h : k' == k
      · simp [setKeyD, h, lookupD]
      · simp [setKeyD, h, lookupD, ih]

theorem getNestedParts_cons_found {es : List (String × Yaml)} {p : String}
    {c : Yaml} (rest : List String) (h : lookupD es p = some c) :
    getNestedParts (.dict es) (p :: rest) = getNestedParts c rest := by
  simp [getNestedParts, h]

/-- Core round-trip on split paths: setting then getting along the same path
returns the value written, provided every intermediate node is absent or a
dict. -/
theorem getNestedParts_setNestedParts (parts : List String) :
    ∀ (es : List (String × Yaml)) (v : Yaml), parts ≠ [] →
    intermediatesOk (.dict es) parts = true →
    ∃ cfg', setNestedParts (.dict es) parts v = some cfg' ∧
      getNestedParts cfg' parts = v := by
  induction parts with
  | nil => intro es v h; exact absurd rfl h
  | cons p rest ih =>
      intro es v _ hok
      cases rest with
      | nil =>
          refine ⟨.dict (setKeyD es p v), rfl, ?_⟩
          rw [getNestedParts_cons_found [] (lookupD_setKeyD_self es p v)]
          rfl
      | cons q rest' =>
          have hne : (q :: rest') ≠ ([] : List String) := by simp
          -- the child node actually descended into by the source
          rcases hchild : lookupD es p with _ | c
          · -- absent: a fresh empty dict is created
            have hok' : intermediatesOk (.dict ([] : List (String × Yaml)))
                (q :: rest') = true := by
              cases rest' <;> simp [intermediatesOk, lookupD]
            obtain ⟨c', hc', hget⟩ := ih ([] : List (String × Yaml)) v hne hok'
            refine ⟨.dict (setKeyD es p c'), ?_, ?_⟩
            · simp [setNestedParts, hchild, hc']
            · rw [getNestedParts_cons_found (q :: rest')
                (lookupD_setKeyD_self es p c')]
              exact hget
          · -- present: by the hypothesis it must be a dict
            have hcd : ∃ es', c = .dict es' := by
              simp only [intermediatesOk, hchild] at hok
              cases c with
              | dict es' => exact ⟨es', rfl⟩
              | null => simp at hok
              | boolV b => simp at hok
              | numV n => simp at hok
              | str s => simp at hok
            obtain ⟨es', rfl⟩ := hcd
            have hok' : intermediatesOk (.dict es') (q :: rest') = true := by
              simpa [intermediatesOk, hchild] using hok
            obtain ⟨c', hc', hget⟩ := ih es' v hne hok'
            refine ⟨.dict (setKeyD es p c'), ?_, ?_⟩
            · simp [setNestedParts, hchild, hc']
            · rw [getNestedParts_cons_found (q :: rest')
                (lookupD_setKeyD_self es p c')]
              exact hget

/-! ## Claim C8 -/

/-- C8: for every dotted path and value such that each intermediate node
along the path in the configuration tree is either absent or a dict, setting
the value at the path and then getting the value at the path returns the
value (the set/get round-trip holds on the in-memory config). -/
theorem claim_c8_set_get_roundtrip (es : List (String × Yaml)) (path : String)
    (v : Yaml) (h : intermediatesOk (.dict es) (splitPath path) = true) :
    ∃ cfg', setNestedValue (.dict es) path v = some cfg' ∧
      getNestedValue cfg' path = v :=
  getNestedParts_setNestedParts (splitPath path) es v (splitPath_ne_nil path) h

/-- Witness for C8 at the concrete path `env.b` over a tree whose `env`
section already holds another key. -/
theorem claim_c8_witness :
    intermediatesOk (.dict [("env", .dict [("a", .str "1")])])
        (splitPath "env.b") = true ∧
    ∃ cfg', setNestedValue (.dict [("env", .dict [("a", .str "1")])])
        "env.b" (.str "x") = some cfg' ∧
      getNestedValue cfg' "env.b" = .str "x" :=
  ⟨rfl, claim_c8_set_get_roundtrip [("env", .dict [("a", .str "1")])]
    "env.b" (.str "x") rfl⟩

/-! ## Claim C1 -/

/-- C1: the claimed invariant — at most one success-status
`add_environment_variable_placeholder` ActionRecord per rehosting cycle,
enforced by a history check that fails duplicates without mutating the
config — is violated by the code on a single plan of two options, each
resolving to one placeholder call: the cross-option guard's `continue` sits
in the record-scan loop, so the second call executes anyway; both records
get `status = "success"` and both sentinel variables are written. -/
theorem claim_c1_placeholder_invariant_bug :
    (executePlan extStub resolveTwoPlaceholders 3 regEmpty
        [optHigh1, optHigh2]).map
        (fun r => (r.records.map (fun a => (a.tool, a.status)),
          getNestedValue r.reg.config "env.var1",
          getNestedValue r.reg.config "env.var2")) =
      .ok ([(placeholderTool, "success"), (placeholderTool, "success")],
        .str placeholderValue, .str placeholderValue) := by
  rfl

/-! ## Claim C10 -/

/-- C10: the claim that a prior placeholder ActionRecord (even a failed one)
blocks every later placeholder call of the same plan from reaching the
mutation tool is false on the code: with the first option's placeholder
rejected (reserved name) and a second option requesting one, the code
appends the BLOCKED message yet still executes the call — the second record
is a success and the sentinel is written. -/
theorem claim_c10_blocking_bug :
    (executePlan extStub resolveRejectedThenPlaceholder 3 regEmpty
        [optHigh1, optHigh2]).map
        (fun r => (r.records.map (fun a => (a.tool, a.status)),
          getNestedValue r.reg.config "env.bar")) =
      .ok ([(placeholderTool, "failed"), (placeholderTool, "success")],
        .str placeholderValue) ∧
    (execToolCalls extStub [failedPlaceholderRecord]
        { reg := regEmpty, successCalls := 0, placeholderUsed := false,
          messages := [] }
        [{ tool := placeholderTool,
           params := [("name", "bar"), ("reason", "r")] }]).messages =
      [crossOptionBlockedMsg,
       "Success: Added environment variable bar with placeholder value for dynamic discovery"] := by
  exact ⟨rfl, rfl⟩

/-! ## Claim C3 -/

/-- C3 counterexample: a round whose only placeholder-add attempt FAILED
still puts the next round into Discovery mode — the transition check reads
only the record's `tool` field, never its `status`.  This refutes the
claim's "exactly when the history contains a successful call" and its "a
round whose only placeholder-add attempts failed does not put the next
round into Discovery mode". -/
theorem claim_c3_counterexample :
    checkDiscoveryModeTransitions [sxidFailedRecord] false none (some false) =
      (true, some "sxid") ∧
    sxidFailedRecord.status = "failed" :=
  ⟨rfl, rfl⟩

/-- C3 (amended): from Normal, the state transitions to Discovery after a
round exactly when the round's ActionRecord history contains a record with
tool `add_environment_variable_placeholder` — of ANY status — and the
discovered variable is `input.name` of the first such record (defaulting to
"unknown"). -/
theorem claim_c3_discovery_entry (actions : List ActionRecord)
    (dv : Option String) (finalDM : Option Bool) :
    ((checkDiscoveryModeTransitions actions false dv finalDM).1 = true ↔
      ∃ a ∈ actions, a.tool = placeholderTool) ∧
    (∀ a, actions.find? (fun a => a.tool == placeholderTool) = some a →
      checkDiscoveryModeTransitions actions false dv finalDM =
        (true, some ((lookupS a.input "name").getD "unknown"))) := by
  have hnorm : checkDiscoveryModeTransitions actions false dv finalDM =
      match actions.find? (fun a => a.tool == placeholderTool) with
      | some a => (true, some ((lookupS a.input "name").getD "unknown"))
      | none => (false, dv) := by
    simp [checkDiscoveryModeTransitions]
  constructor
  · rcases hf : actions.find? (fun a => a.tool == placeholderTool) with _ | a
    · rw [hnorm, hf]
      rw [List.find?_eq_none] at hf
      constructor
      · intro h; exact absurd h (by simp)
      · rintro ⟨a, ha, hto⟩
        exact absurd (by simpa using hto) (by simpa using hf a ha)
    · have hmem := List.mem_of_find?_eq_some hf
      have htool : a.tool = placeholderTool := by
        simpa using List.find?_some hf
      rw [hnorm, hf]
      exact ⟨fun _ => ⟨a, hmem, htool⟩, fun _ => rfl⟩
  · intro a hf
    rw [hnorm, hf]

/-- C3 witness: a successful placeholder-add for `sxid` makes the next
round's state Discovery("sxid"). -/
theorem claim_c3_witness :
    checkDiscoveryModeTransitions [sxidSuccessRecord] false none (some false) =
      (true, some "sxid") ∧
    ((checkDiscoveryModeTransitions [sxidSuccessRecord] false none
        (some false)).1 = true ↔
      ∃ a ∈ [sxidSuccessRecord], a.tool = placeholderTool) :=
  ⟨(claim_c3_discovery_entry [sxidSuccessRecord] none (some false)).2
      sxidSuccessRecord rfl,
    (claim_c3_discovery_entry [sxidSuccessRecord] none (some false)).1⟩

/-! ## Claim C4 -/

/-- C4 counterexample: a round that begins in Discovery("sxid") and produces
NO plan leaves the state in Discovery("sxid") — the transition check is only
reached when the round delivered a plan, refuting "unconditionally ...
regardless of that round's outcome (... or no plan produced)". -/
theorem claim_c4_counterexample :
    roundStateUpdate
        (.finishedE { plan := none, actions := [], discoveryMode := some false })
        true (some "sxid") [] =
      (true, some "sxid", ["Multi-agent workflow failed to generate plan"]) :=
  rfl

/-- C4 (amended): when a round that began in Discovery completes WITH a plan
the state is Normal afterwards — the Engineer's node output always carries
`discovery_mode = False` (both branches of `__call__`), and the transition
check then exits Discovery unconditionally; but when the round raises, or
produces no plan, the Discovery state persists into the next round. -/
theorem claim_c4_discovery_exit (actions : List ActionRecord)
    (opts : List OptionDict) (dv : Option String) (errors : List String)
    (ext : ExtTool) (resolve : Nat → Resolution) (maxOptions : Nat)
    (reg : Registry) (planOptions : Option (List OptionDict))
    (fdm : Option Bool) (m : String) :
    roundStateUpdate (.finishedE ⟨some opts, actions, some false⟩)
        true dv errors =
      (false, none, errors) ∧
    (∀ u reg', engineerCall ext resolve maxOptions reg planOptions =
        .ok (u, reg') → u.discoveryMode = false) ∧
    (roundStateUpdate (.finishedE ⟨none, actions, fdm⟩)
        true dv errors).1 = true ∧
    (roundStateUpdate (.raisedE m) true dv errors).1 = true := by
  refine ⟨?_, ?_, rfl, rfl⟩
  · simp [roundStateUpdate, checkDiscoveryModeTransitions]
  · intro u reg' h
    cases planOptions with
    | none =>
        simp only [engineerCall, Except.ok.injEq, Prod.mk.injEq] at h
        rw [← h.1]
    | some opts' =>
        simp only [engineerCall] at h
        cases hx : executePlan ext resolve maxOptions reg opts' with
        | error e => rw [hx] at h; exact absurd h (by simp)
        | ok r =>
            rw [hx] at h
            simp only [Except.ok.injEq, Prod.mk.injEq] at h
            rw [← h.1]

/-- C4 witness: concrete round in Discovery with a plan — state returns to
Normal; and the Engineer's updates carry `discovery_mode = False`. -/
theorem claim_c4_witness :
    roundStateUpdate (.finishedE ⟨some [], [], some false⟩)
        true (some "sxid") [] =
      (false, none, []) ∧
    ({ actions := [], discoveryMode := false } : EngineerUpdates).discoveryMode
      = false :=
  ⟨(claim_c4_discovery_exit [] [] (some "sxid") [] extStub (fun _ => .exec [])
      3 regEmpty none none "m").1,
    (claim_c4_discovery_exit [] [] (some "sxid") [] extStub (fun _ => .exec [])
      3 regEmpty none none "m").2.1 { actions := [], discoveryMode := false }
      regEmpty rfl⟩

/-! ## Claim C5 -/

/-- C5 counterexample: an exception raised by the Penguin engine run (line
314, outside the round's `try`) is NOT caught at the loop boundary: the run
aborts with the exception instead of completing `max_iter` rounds and
reporting a final summary. -/
theorem claim_c5_counterexample :
    rehostIterations 2 (fun _ =>
      ⟨.raisedR "FileNotFoundError: Project config not found",
        .finishedE ⟨none, [], none⟩⟩) =
      .error "FileNotFoundError: Project config not found" :=
  rfl

theorem roundStateUpdate_errors_le (o : WorkflowRoundOutcome) (dm : Bool)
    (dv : Option String) (errors : List String) :
    (roundStateUpdate o dm dv errors).2.2.length ≤ errors.length + 1 := by
  cases o with
  | raisedE m => simp [roundStateUpdate]
  | finishedE fs =>
      cases hp : fs.plan with
      | none => simp [roundStateUpdate, hp]
      | some opts => simp [roundStateUpdate, hp]

theorem rehostIterationsGo_ok (rounds : Nat → RoundBehavior) :
    ∀ (n i : Nat) (dm : Bool) (dv : Option String) (errs : List String),
    (∀ k, k < n → (rounds (i + k)).engine = .ran) →
    ∃ dm' dv' errs',
      rehostIterationsGo rounds i n dm dv errs = .ok (dm', dv', errs') ∧
      errs'.length ≤ errs.length + n := by
  intro n
  induction n with
  | zero => intro i dm dv errs _; exact ⟨dm, dv, errs, rfl, by omega⟩
  | succ n ih =>
      intro i dm dv errs h
      have h0 : (rounds i).engine = .ran := by
        simpa using h 0 (Nat.succ_pos n)
      have h1 : ∀ k, k < n → (rounds (i + 1 + k)).engine = .ran := by
        intro k hk
        have := h (k + 1) (by omega)
        simpa [Nat.add_assoc, Nat.add_comm 1 k] using this
      obtain ⟨dm', dv', errs', heq, hlen⟩ :=
        ih (i + 1) (roundStateUpdate (rounds i).agent dm dv errs).1
          (roundStateUpdate (rounds i).agent dm dv errs).2.1
          (roundStateUpdate (rounds i).agent dm dv errs).2.2 h1
      refine ⟨dm', dv', errs', ?_, ?_⟩
      · simp only [rehostIterationsGo, h0]
        exact heq
      · have := roundStateUpdate_errors_le (rounds i).agent dm dv errs
        omega

/-- C5 (amended): when every engine run of the loop returns (rather than
raising), every error of the guarded multi-agent block — planning, context
building, execution — is caught and appended, and the loop always completes
the configured `max_iter` rounds and reports the final summary with
`success = True`; an exception from the engine run itself, however,
escapes `rehost_firmware` (see the counterexample). -/
theorem claim_c5_round_errors (maxIter : Nat) (rounds : Nat → RoundBehavior)
    (h : ∀ i, i < maxIter → (rounds i).engine = .ran) :
    ∃ errors, rehostIterations maxIter rounds =
      .ok { iterationsCompleted := maxIter, errors := errors, success := true } ∧
      errors.length ≤ maxIter := by
  obtain ⟨dm', dv', errs', heq, hlen⟩ :=
    rehostIterationsGo_ok rounds maxIter 0 false none []
      (by intro k hk; simpa using h k hk)
  refine ⟨errs', ?_, by simpa using hlen⟩
  simp only [rehostIterations, heq]

/-- C5 witness: two rounds whose multi-agent block raises every time still
complete both rounds and report a summary with `success = True`. -/
theorem claim_c5_witness :
    (∀ i, i < 2 →
      ((fun (_ : Nat) => (⟨.ran, .raisedE "boom"⟩ : RoundBehavior)) i).engine
        = .ran) ∧
    ∃ errors, rehostIterations 2
        (fun _ => (⟨.ran, .raisedE "boom"⟩ : RoundBehavior)) =
      .ok ⟨2, errors, true⟩ ∧
      errors.length ≤ 2 :=
  ⟨fun _ _ => rfl,
    claim_c5_round_errors 2 (fun _ => (⟨.ran, .raisedE "boom"⟩ : RoundBehavior))
      (fun _ _ => rfl)⟩

/-! ## Claim C9 -/

theorem commonLead_self (a : List String) : commonLead a a = a.length := by
  induction a with
  | nil => rfl
  | cons x xs ih => simp [commonLead, ih]

theorem commonLead_le_left :
    ∀ (a b : List String), commonLead a b ≤ a.length := by
  intro a
  induction a with
  | nil => intro b; cases b <;> simp [commonLead]
  | cons x xs ih =>
      intro b
      cases b with
      | nil => simp [commonLead]
      | cons y ys =>
          by_cases h : x == y
          · simp only [commonLead, h, if_true, List.length_cons]
            have := ih ys
            omega
          · simp [commonLead, h]

theorem commonLead_le_right :
    ∀ (a b : List String), commonLead a b ≤ b.length := by
  intro a
  induction a with
  | nil => intro b; cases b <;> simp [commonLead]
  | cons x xs ih =>
      intro b
      cases b with
      | nil => simp [commonLead]
      | cons y ys =>
          by_cases h : x == y
          · simp only [commonLead, h, if_true, List.length_cons]
            have := ih ys
            omega
          · simp [commonLead, h]

theorem take_commonLead_eq :
    ∀ (a b : List String), a.take (commonLead a b) = b.take (commonLead a b) := by
  intro a
  induction a with
  | nil => intro b; cases b <;> simp [commonLead]
  | cons x xs ih =>
      intro b
      cases b with
      | nil => simp [commonLead]
      | cons y ys =>
          by_cases h : x == y
          · have hxy : x = y := eq_of_beq h
            subst hxy
            simp only [commonLead, beq_self_eq_true, if_true,
              List.take_succ_cons, ih ys]
          · simp [commonLead, h]

theorem commonLead_full :
    ∀ (a b : List String), commonLead a b = a.length →
      commonLead a b = b.length → a = b := by
  intro a
  induction a with
  | nil =>
      intro b h1 h2
      cases b with
      | nil => rfl
      | cons y ys => simp [commonLead] at h2
  | cons x xs ih =>
      intro b h1 h2
      cases b with
      | nil => simp [commonLead] at h1
      | cons y ys =>
          by_cases h : x == y
          · have hxy : x = y := eq_of_beq h
            simp only [commonLead, h, if_true, List.length_cons] at h1 h2
            rw [hxy, ih ys (by omega) (by omega)]
          · simp [commonLead, h] at h1

theorem unifiedDiffLines_self (a : List String) : unifiedDiffLines a a = [] := by
  simp [unifiedDiffLines, commonLead_self, List.drop_length, commonLead]

theorem unifiedDiffLines_shape (a b : List String) :
    unifiedDiffLines a b = [] ∨
    ∃ t, unifiedDiffLines a b = "--- original config.yaml" :: t := by
  simp only [unifiedDiffLines]
  split
  · exact Or.inl rfl
  · exact Or.inr ⟨_, rfl⟩

theorem unifiedDiffLines_eq_nil (a b : List String)
    (h : unifiedDiffLines a b = []) : a = b := by
  simp only [unifiedDiffLines] at h
  split at h
  case isTrue hc =>
    rw [Bool.and_eq_true, List.isEmpty_iff, List.isEmpty_iff] at hc
    obtain ⟨hA, hB⟩ := hc
    rw [List.take_eq_nil_iff] at hA hB
    have hta : (a.drop (commonLead a b)).length ≤
        commonLead (a.drop (commonLead a b)).reverse
          (b.drop (commonLead a b)).reverse := by
      rcases hA with hA | hA
      · omega
      · simp [hA]
    have htb : (b.drop (commonLead a b)).length ≤
        commonLead (a.drop (commonLead a b)).reverse
          (b.drop (commonLead a b)).reverse := by
      rcases hB with hB | hB
      · omega
      · simp [hB]
    have hla := commonLead_le_left (a.drop (commonLead a b)).reverse
      (b.drop (commonLead a b)).reverse
    have hlb := commonLead_le_right (a.drop (commonLead a b)).reverse
      (b.drop (commonLead a b)).reverse
    rw [List.length_reverse] at hla hlb
    have heqr : (a.drop (commonLead a b)).reverse =
        (b.drop (commonLead a b)).reverse := by
      apply commonLead_full
      · rw [List.length_reverse]; omega
      · rw [List.length_reverse]; omega
    have heq : a.drop (commonLead a b) = b.drop (commonLead a b) :=
      List.reverse_injective heqr
    calc a = a.take (commonLead a b) ++ a.drop (commonLead a b) :=
            (List.take_append_drop _ a).symm
      _ = b.take (commonLead a b) ++ b.drop (commonLead a b) := by
            rw [take_commonLead_eq a b, heq]
      _ = b := List.take_append_drop _ b
  case isFalse => simp at h

theorem joinedLines_header_ne_empty (t : List String) :
    joinedLines ("--- original config.yaml" :: t) ≠ "" := by
  cases t with
  | nil => intro h; exact absurd (congrArg String.length h) (by decide)
  | cons x xs =>
      simp only [joinedLines]
      intro h
      have hd := congrArg String.data h
      simp only [String.data_append] at hd
      simp at hd

/-- C9 counterexample: a registry freshly built over a project whose
`config.yaml` was absent or empty has no baseline (`original_config` stays
`None`), so `get_config_diff` returns the non-empty placeholder message even
though no mutation has occurred — the claimed "diff is empty when no
mutation occurred" fails. -/
theorem claim_c9_counterexample :
    getConfigDiff regEmpty = noBaselineMsg ∧ noBaselineMsg ≠ "" :=
  ⟨rfl, by decide⟩

/-- C9 (amended): `get_config_diff` compares the baseline snapshot with the
current config only when a truthy (non-empty) baseline exists: it then
returns an empty string when no mutation has occurred since the snapshot,
and a non-empty textual unified diff of the two YAML renderings whenever
they differ; with an absent or empty baseline it returns the fixed
placeholder message instead, regardless of mutations. -/
theorem claim_c9_config_diff (reg : Registry) :
    (∀ o, reg.originalConfig = some o → yamlTruthy o = true →
      ((reg.config = o → getConfigDiff reg = "") ∧
       (dumpYamlLines o ≠ dumpYamlLines reg.config → getConfigDiff reg ≠ ""))) ∧
    ((reg.originalConfig = none ∨
      ∃ o, reg.originalConfig = some o ∧ yamlTruthy o = false) →
      getConfigDiff reg = noBaselineMsg) := by
  constructor
  · intro o ho htr
    constructor
    · intro hcfg
      simp only [getConfigDiff, ho, htr, Bool.not_true, Bool.false_eq_true,
        if_false, hcfg]
      rw [unifiedDiffLines_self]
      rfl
    · intro hne
      simp only [getConfigDiff, ho, htr, Bool.not_true, Bool.false_eq_true,
        if_false]
      rcases unifiedDiffLines_shape (dumpYamlLines o) (dumpYamlLines reg.config)
        with hsh | ⟨t, hsh⟩
      · exact absurd (unifiedDiffLines_eq_nil _ _ hsh) hne
      · rw [hsh]
        exact joinedLines_header_ne_empty t
  · rintro (hn | ⟨o, ho, hf⟩)
    · simp [getConfigDiff, hn]
    · simp [getConfigDiff, ho, hf]

/-- C9 witness: with the one-key baseline `{a: "1"}`, the diff is empty when
the config is unchanged and non-empty after changing the value of `a`. -/
theorem claim_c9_witness :
    getConfigDiff { projectPath := "/proj", config := .dict [("a", .str "1")], originalConfig := some (.dict [("a", .str "1")]), saveOk := true } = "" ∧
    getConfigDiff { projectPath := "/proj", config := .dict [("a", .str "2")], originalConfig := some (.dict [("a", .str "1")]), saveOk := true } ≠ "" :=
  ⟨((claim_c9_config_diff _).1 (.dict [("a", .str "1")]) rfl rfl).1 rfl,
    ((claim_c9_config_diff _).1 (.dict [("a", .str "1")]) rfl rfl).2
      (by simp [dumpYamlLines, dumpEntries, scalarDump])⟩

/-! ## Claim C7 -/

theorem priorityRank_cases (o : OptionDict) :
    priorityRank o = 0 ∨ priorityRank o = 1 ∨ priorityRank o = 2 ∨
    priorityRank o = 3 ∨ priorityRank o = 999 := by
  unfold priorityRank
  split <;> simp

theorem rank_of_mem_filter {opts : List OptionDict} {j : Nat} {o : OptionDict}
    (h : o ∈ opts.filter (fun o => priorityRank o == j)) : priorityRank o = j := by
  have := (List.mem_filter.mp h).2
  simpa using this

theorem filter_rank_ne {opts : List OptionDict} {j k : Nat} (h : j ≠ k) :
    (opts.filter (fun o => priorityRank o == j)).filter
      (fun o => priorityRank o == k) = [] := by
  rw [List.filter_eq_nil_iff]
  intro a ha
  have := rank_of_mem_filter ha
  simp [this, h]

theorem filter_rank_idem (opts : List OptionDict) (j : Nat) :
    (opts.filter (fun o => priorityRank o == j)).filter
      (fun o => priorityRank o == j) =
    opts.filter (fun o => priorityRank o == j) := by
  rw [List.filter_eq_self]
  intro a ha
  simp [rank_of_mem_filter ha]

theorem filter_sortOptions (opts : List OptionDict) (k : Nat) :
    (sortOptionsByPriority opts).filter (fun o => priorityRank o == k) =
      opts.filter (fun o => priorityRank o == k) := by
  unfold sortOptionsByPriority
  rw [List.filter_append, List.filter_append, List.filter_append,
    List.filter_append]
  by_cases h0 : k = 0
  · subst h0
    rw [filter_rank_idem, filter_rank_ne (by omega), filter_rank_ne (by omega),
      filter_rank_ne (by omega), filter_rank_ne (by omega)]
    simp
  by_cases h1 : k = 1
  · subst h1
    rw [filter_rank_idem, filter_rank_ne (by omega), filter_rank_ne (by omega),
      filter_rank_ne (by omega), filter_rank_ne (by omega)]
    simp
  by_cases h2 : k = 2
  · subst h2
    rw [filter_rank_idem, filter_rank_ne (by omega), filter_rank_ne (by omega),
      filter_rank_ne (by omega), filter_rank_ne (by omega)]
    simp
  by_cases h3 : k = 3
  · subst h3
    rw [filter_rank_idem, filter_rank_ne (by omega), filter_rank_ne (by omega),
      filter_rank_ne (by omega), filter_rank_ne (by omega)]
    simp
  by_cases h9 : k = 999
  · subst h9
    rw [filter_rank_idem, filter_rank_ne (by omega), filter_rank_ne (by omega),
      filter_rank_ne (by omega), filter_rank_ne (by omega)]
    simp
  · rw [filter_rank_ne (by omega), filter_rank_ne (by omega),
      filter_rank_ne (by omega), filter_rank_ne (by omega),
      filter_rank_ne (by omega)]
    have : opts.filter (fun o => priorityRank o == k) = [] := by
      rw [List.filter_eq_nil_iff]
      intro a _
      rcases priorityRank_cases a with h | h | h | h | h <;> simp [h] <;> omega
    rw [this]
    simp

theorem pairwise_rank_bucket (opts : List OptionDict) (j : Nat) :
    List.Pairwise (fun a b => priorityRank a ≤ priorityRank b)
      (opts.filter (fun o => priorityRank o == j)) := by
  apply List.pairwise_of_forall_mem_list
  intro a ha b hb
  rw [rank_of_mem_filter ha, rank_of_mem_filter hb]

theorem pairwise_sortOptions (opts : List OptionDict) :
    List.Pairwise (fun a b => priorityRank a ≤ priorityRank b)
      (sortOptionsByPriority opts) := by
  unfold sortOptionsByPriority
  simp only [List.append_assoc]
  rw [List.pairwise_append]
  refine ⟨pairwise_rank_bucket opts 0, ?_, ?_⟩
  · rw [List.pairwise_append]
    refine ⟨pairwise_rank_bucket opts 1, ?_, ?_⟩
    · rw [List.pairwise_append]
      refine ⟨pairwise_rank_bucket opts 2, ?_, ?_⟩
      · rw [List.pairwise_append]
        refine ⟨pairwise_rank_bucket opts 3, pairwise_rank_bucket opts 999, ?_⟩
        intro a ha b hb
        rw [rank_of_mem_filter ha, rank_of_mem_filter hb]
        omega
      · intro a ha b hb
        rw [List.mem_append] at hb
        rw [rank_of_mem_filter ha]
        rcases hb with hb | hb <;> rw [rank_of_mem_filter hb] <;> omega
    · intro a ha b hb
      rw [List.mem_append, List.mem_append] at hb
      rw [rank_of_mem_filter ha]
      rcases hb with hb | hb | hb <;> rw [rank_of_mem_filter hb] <;> omega
  · intro a ha b hb
    rw [List.mem_append, List.mem_append, List.mem_append] at hb
    rw [rank_of_mem_filter ha]
    rcases hb with hb | hb | hb | hb <;> rw [rank_of_mem_filter hb] <;> omega

theorem mem_sortOptions_subset {opts : List OptionDict} {o : OptionDict}
    (h : o ∈ sortOptionsByPriority opts) : o ∈ opts := by
  unfold sortOptionsByPriority at h
  simp only [List.append_assoc, List.mem_append] at h
  rcases h with h | h | h | h | h <;> exact (List.mem_filter.mp h).1

theorem mem_engineerSelect_subset {maxOptions : Nat} {opts : List OptionDict}
    {o : OptionDict} (h : o ∈ engineerSelect maxOptions opts) : o ∈ opts := by
  unfold engineerSelect capOptions at h
  split at h
  · exact mem_sortOptions_subset (List.take_subset _ _ h)
  · exact mem_sortOptions_subset h

theorem execOptionsLoop_ok_length (ext : ExtTool) (resolve : Nat → Resolution) :
    ∀ (opts : List OptionDict) (reg : Registry) (i : Nat)
      (hist : List ActionRecord) (c f s : Nat),
    (∀ o ∈ opts, (match lookupJ o "option_id" with
      | some (.str _) => true
      | none => true
      | some _ => false) = true) →
    ∃ r, execOptionsLoop ext resolve reg i hist c f s opts = .ok r ∧
      r.records.length = hist.length + opts.length := by
  intro opts
  induction opts with
  | nil =>
      intro reg i hist c f s _
      exact ⟨_, rfl, by simp⟩
  | cons o rest ih =>
      intro reg i hist c f s hwf
      have ho := hwf o (by simp)
      have hsid : ∃ sid, optionStepId i o = .ok sid := by
        unfold optionStepId
        rcases hl : lookupJ o "option_id" with _ | v
        · exact ⟨toString i, rfl⟩
        · cases v with
          | str sv => exact ⟨sv, rfl⟩
          | null => rw [hl] at ho; simp at ho
          | boolV b => rw [hl] at ho; simp at ho
          | numV n => rw [hl] at ho; simp at ho
          | floatV f => rw [hl] at ho; simp at ho
          | arr xs => rw [hl] at ho; simp at ho
          | obj kvs => rw [hl] at ho; simp at ho
      obtain ⟨sid, hsid⟩ := hsid
      simp only [execOptionsLoop, hsid]
      obtain ⟨r, hr, hlen⟩ := ih _ _ _ _ _ _
        (fun o' ho' => hwf o' (List.mem_cons_of_mem o ho'))
      refine ⟨r, hr, ?_⟩
      rw [hlen]
      simp
      omega

/-- C7: `execute_plan` orders the plan's options by the fixed priority tiers
critical < high < medium < low with a stable sort — the executed sequence is
pairwise ordered by rank, and the options of each priority appear exactly in
the plan's original relative order — and executes the highest-priority
prefix of `max_options` options when the cap is positive, all options when
it is 0; one ActionRecord is produced per executed option.  In particular,
priorities [low, critical, medium, high] execute in order
[critical, high, medium, low]. -/
theorem claim_c7_priority_order (maxOptions : Nat) (opts : List OptionDict)
    (ext : ExtTool) (resolve : Nat → Resolution) (reg : Registry)
    (hwf : wfOptionIds opts = true) :
    List.Pairwise (fun a b => priorityRank a ≤ priorityRank b)
      (sortOptionsByPriority opts) ∧
    (∀ k, (sortOptionsByPriority opts).filter (fun o => priorityRank o == k) =
      opts.filter (fun o => priorityRank o == k)) ∧
    engineerSelect maxOptions opts =
      (if 0 < maxOptions then (sortOptionsByPriority opts).take maxOptions
       else sortOptionsByPriority opts) ∧
    (∃ r, executePlan ext resolve maxOptions reg opts = .ok r ∧
      r.records.length = (engineerSelect maxOptions opts).length) ∧
    engineerSelect 0 [optLow, optCritical, optMedium, optHigh] =
      [optCritical, optHigh, optMedium, optLow] := by
  refine ⟨pairwise_sortOptions opts, filter_sortOptions opts, ?_, ?_, rfl⟩
  · unfold engineerSelect capOptions
    rcases Nat.eq_zero_or_pos maxOptions with hm | hm
    · subst hm; simp
    · by_cases hl : (sortOptionsByPriority opts).length > maxOptions
      · simp [hm, hl]
      · rw [if_pos hm, if_neg (by simp [hm]; omega)]
        rw [List.take_of_length_le (by omega)]
  · have hwf' : ∀ o ∈ engineerSelect maxOptions opts,
        (match lookupJ o "option_id" with
          | some (.str _) => true
          | none => true
          | some _ => false) = true := by
      intro o ho
      exact (List.all_eq_true.mp hwf) o (mem_engineerSelect_subset ho)
    obtain ⟨r, hr, hlen⟩ := execOptionsLoop_ok_length ext resolve
      (engineerSelect maxOptions opts) reg 1 [] 0 0 0 hwf'
    exact ⟨r, hr, by simpa using hlen⟩

/-- C7 witness: the four-option plan of the spec's example, capped at 3,
executes with one record per selected option. -/
theorem claim_c7_witness :
    wfOptionIds [optLow, optCritical, optMedium, optHigh] = true ∧
    ∃ r, executePlan extStub (fun _ => .exec []) 3 regEmpty
        [optLow, optCritical, optMedium, optHigh] = .ok r ∧
      r.records.length =
        (engineerSelect 3 [optLow, optCritical, optMedium, optHigh]).length :=
  ⟨rfl, (claim_c7_priority_order 3 [optLow, optCritical, optMedium, optHigh]
    extStub (fun _ => .exec []) regEmpty rfl).2.2.2.1⟩

/-! ## Claims C2 and C6 -/

theorem validPlanB_fallback (uuid : String) (mr : Nat) (err resp : String) :
    validPlanB (createFallbackPlan uuid mr err resp) = true := rfl

/-- C6 counterexample: the fallback plan's single option has NO `action`
field at all (in particular not `action=manual_review`), and the plan is
independent of the raw LLM response passed in — the `response` argument is
ignored, so no truncated copy of the raw response is carried. -/
theorem claim_c6_counterexample :
    (∀ o ∈ (createFallbackPlan "u" 3 "boom" "RAW_LLM_RESPONSE").options,
      lookupJ o "action" = none) ∧
    createFallbackPlan "u" 3 "boom" "RAW_LLM_RESPONSE" =
      createFallbackPlan "u" 3 "boom" "a different response" := by
  constructor
  · intro o ho
    simp only [createFallbackPlan, List.mem_singleton] at ho
    subst ho
    rfl
  · rfl

theorem planRunGo_all_caught (uuid : String) (mrTotal : Nat) :
    ∀ (outcomes : List (Except String String)) (rl ml : String),
    outcomes.getLast? = some (.ok rl) →
    (∀ o ∈ outcomes, ∃ r m, o = .ok r ∧ parsePlan uuid r = .caught m) →
    parsePlan uuid rl = .caught ml →
    planRunGo uuid mrTotal outcomes =
      .ok (createFallbackPlan uuid mrTotal ml rl, outcomes.length) := by
  intro outcomes
  induction outcomes with
  | nil => intro rl ml hlast _ _; simp at hlast
  | cons o rest ih =>
      intro rl ml hlast hall hml
      cases rest with
      | nil =>
          simp only [List.getLast?_singleton, Option.some.injEq] at hlast
          subst hlast
          simp only [planRunGo, hml]
          rfl
      | cons o2 rest2 =>
          obtain ⟨r, m, ho, hcm⟩ := hall o (by simp)
          subst ho
          have hlast' : (o2 :: rest2).getLast? = some (.ok rl) := by
            rwa [List.getLast?_cons_cons] at hlast
          have hrec := ih rl ml hlast'
            (fun o' ho' => hall o' (List.mem_cons_of_mem _ ho')) hml
          simp only [planRunGo, hcm, hrec]
          rfl

/-- C6 (amended): when all `max_retries` attempts fail with caught parse
errors, `plan()` returns the fallback plan: exactly one option with
`priority = critical`, whose `problem` field carries the last error message
and whose `solution` is the fixed manual-review text; the option has no
`action` field, and the raw LLM response is not included anywhere in the
plan (the fallback is independent of it). -/
theorem claim_c6_fallback_plan (uuid : String) (mr : Nat)
    (err resp resp' : String) :
    (createFallbackPlan uuid mr err resp).options =
      [[("option_id", .str "1"),
        ("description", .str ("Failed to parse LLM response after " ++
          toString mr ++ " attempts")),
        ("problem", .str ("LLM response parsing failed: " ++ err)),
        ("solution", .str "Manual review and intervention required"),
        ("priority", .str "critical"),
        ("impact", .str "requires_manual_intervention")]] ∧
    createFallbackPlan uuid mr err resp = createFallbackPlan uuid mr err resp' ∧
    validPlanB (createFallbackPlan uuid mr err resp) = true ∧
    (∀ (outcomes : List (Except String String)) (rl ml : String),
      outcomes.getLast? = some (.ok rl) →
      (∀ o ∈ outcomes, ∃ r m, o = .ok r ∧ parsePlan uuid r = .caught m) →
      parsePlan uuid rl = .caught ml →
      planRun uuid outcomes =
        .ok (createFallbackPlan uuid outcomes.length ml rl, outcomes.length)) :=
  ⟨rfl, rfl, validPlanB_fallback uuid mr err resp,
    fun outcomes rl ml h1 h2 h3 =>
      planRunGo_all_caught uuid outcomes.length outcomes rl ml h1 h2 h3⟩

/-- C6 witness: one unparseable response exhausts a single-retry run and
yields the fallback plan carrying the JSON parse error. -/
theorem claim_c6_witness :
    planRun "u" [.ok "not json"] =
      .ok (createFallbackPlan "u" 1 "Response is not valid JSON" "not json", 1) :=
  (claim_c6_fallback_plan "u" 1 "x" "y" "z").2.2.2 [.ok "not json"]
    "not json" "Response is not valid JSON" rfl
    (fun o ho => ⟨"not json", "Response is not valid JSON",
      by simpa using ho, rfl⟩) rfl

end Tinker
